import Mathlib

/-!
Verification development for the kube-perftest operator core
(python/perftest).  Python definitions are shallowly embedded as Lean
functions; dictionaries become insertion-ordered association lists,
Python `None` becomes `Option`/an explicit `null` value, exceptions
become `Except`/result types, and `datetime.datetime.now()` becomes an
explicit `now : Nat` parameter.  Floating point arithmetic in
`format_amount` is modelled exactly (the inputs exercised in this file
are small enough that IEEE doubles and exact arithmetic agree).
-/

set_option maxRecDepth 4000

/-- Embedding of the JSON-like values manipulated by `perftest.utils.mergeconcat`
and by the benchmark-set spec merging: Python `None`, scalars (numbers,
strings, booleans), sequences, and insertion-ordered dictionaries. -/
inductive Value where
  | null : Value
  | num (n : Int) : Value
  | str (s : String) : Value
  | bool (b : Bool) : Value
  | list (xs : List Value) : Value
  | dict (kvs : List (String × Value)) : Value

/-- A value is a scalar when it is neither `None`, a sequence nor a dictionary. -/
def Value.isScalar : Value → Bool
  | .num _ => true
  | .str _ => true
  | .bool _ => true
  | _ => false

/-- Dictionary lookup: Python `key in d` / `d[key]` on the association list. -/
def lookupEntry : List (String × Value) → String → Option Value
  | [], _ => none
  | (k', v) :: rest, k => if k' = k then some v else lookupEntry rest k

mutual

/-- Embedding of the inner `mergeconcat2` of `perftest.utils.mergeconcat`:
dictionaries merge key-wise, sequences concatenate, and otherwise the
override wins unless it is `None`, in which case the default is kept. -/
def mergeconcat2 : Value → Value → Value
  | .dict ds, .dict os => .dict (mergeEntries ds os)
  | .list ds, .list os => .list (ds ++ os)
  | d, .null => d
  | _, o => o
termination_by _ o => (sizeOf o, 0, 0)
decreasing_by all_goals (simp_wf; first | (apply Prod.Lex.left; omega) | (apply Prod.Lex.right; first | (apply Prod.Lex.left; omega) | (apply Prod.Lex.right; omega)))

/-- Python's `merged = dict(defaults); for key, value in overrides.items(): ...`
loop: each override entry is folded into the accumulated dictionary
(keys of each dictionary are distinct, as in Python). -/
def mergeEntries (ds : List (String × Value)) : List (String × Value) → List (String × Value)
  | [] => ds
  | (k, v) :: rest => mergeEntries (upsertEntry ds k v) rest
termination_by os => (sizeOf os, 0, 2)
decreasing_by all_goals (simp_wf; first | (apply Prod.Lex.left; omega) | (apply Prod.Lex.right; first | (apply Prod.Lex.left; omega) | (apply Prod.Lex.right; omega)))

/-- One step of the merge loop: if the key exists merge recursively in
place, otherwise append the new entry at the end (Python dict insertion
order). -/
def upsertEntry : List (String × Value) → String → Value → List (String × Value)
  | [], k, v => [(k, v)]
  | (k', v') :: rest, k, v =>
      if k' = k then (k', mergeconcat2 v' v) :: rest
      else (k', v') :: upsertEntry rest k v
termination_by ds _ v => (sizeOf v, sizeOf ds, 1)
decreasing_by all_goals (simp_wf; first | (apply Prod.Lex.left; omega) | (apply Prod.Lex.right; first | (apply Prod.Lex.left; omega) | (apply Prod.Lex.right; omega)))

end

/-- Embedding of `perftest.utils.mergeconcat`: fold the overrides into the
defaults from left to right (`functools.reduce`). -/
def mergeconcat (defaults : Value) (overrides : List Value) : Value :=
  overrides.foldl mergeconcat2 defaults

/-!
Embedding of `perftest/models/v1alpha1/base.py`.
-/

/-- Enumeration of possible phases for a benchmark
(`perftest.models.v1alpha1.base.BenchmarkPhase`). -/
inductive BenchmarkPhase where
  | unknown
  | preparing
  | pending
  | aborting
  | aborted
  | running
  | restarting
  | completing
  | summarising
  | completed
  | terminating
  | terminated
  | failed
deriving DecidableEq, Repr

/-- Conversion of a string to a member of the `BenchmarkPhase` enumeration:
Python `BenchmarkPhase(job_phase)` succeeds exactly on the enumeration's
values and raises `ValueError` (here `none`) on any other string. -/
def BenchmarkPhase.ofString : String → Option BenchmarkPhase
  | "Unknown" => some .unknown
  | "Preparing" => some .preparing
  | "Pending" => some .pending
  | "Aborting" => some .aborting
  | "Aborted" => some .aborted
  | "Running" => some .running
  | "Restarting" => some .restarting
  | "Completing" => some .completing
  | "Summarising" => some .summarising
  | "Completed" => some .completed
  | "Terminating" => some .terminating
  | "Terminated" => some .terminated
  | "Failed" => some .failed
  | _ => none

/-- The terminal phases, as enumerated in the set literal at the top of
`handle_benchmark_status_changed` (`operator.py`). -/
def BenchmarkPhase.isTerminal : BenchmarkPhase → Bool
  | .aborted => true
  | .completed => true
  | .terminated => true
  | .failed => true
  | _ => false

/-- Reference to a resource that is part of a benchmark
(`perftest.models.v1alpha1.base.ResourceRef`). -/
structure ResourceRef where
  apiVersion : String
  kind : String
  name : String
deriving DecidableEq, Repr

/-- Common status shape of a benchmark
(`perftest.models.v1alpha1.base.BenchmarkStatus`).  Timestamps are
abstracted as natural numbers. -/
structure BenchmarkStatus where
  phase : BenchmarkPhase := .unknown
  priorityClassName : Option String := none
  managedResources : List ResourceRef := []
  startedAt : Option Nat := none
  finishedAt : Option Nat := none
deriving DecidableEq, Repr

/-- Embedding of the default `Benchmark.job_modified` of `base.py`.  The
input is the job's `status.state.phase` field (`none` when any level of
the nesting is absent, in which case the Python chain of `.get` calls
yields `"Unknown"`).  The result is `none` when `BenchmarkPhase(job_phase)`
raises, and otherwise the updated status. -/
def job_modified (jobStatePhase : Option String) (st : BenchmarkStatus) :
    Option BenchmarkStatus :=
  let jobPhase := jobStatePhase.getD "Unknown"
  if jobPhase = "Completed" then
    some { st with phase := .summarising }
  else
    (BenchmarkPhase.ofString jobPhase).map (fun p => { st with phase := p })

/-!
Embedding of `perftest/utils.py` `format_amount` and of the iperf result
extraction (`perftest/models/v1alpha1/iperf.py`).  Python floats are
modelled by exact natural/rational arithmetic; the float expressions
(`math.floor(math.log(amount) / math.log(quotient))`, `amount % 1`,
two-significant-figure formatting) agree with the exact values at every
input evaluated in this development.
-/

/-- The unit prefixes of `perftest.utils._PREFIXES`. -/
def unitPrefixes : List String := ["", "K", "M", "G", "T", "P", "E", "Z", "Y"]

/-- Largest `e` with `q ^ e ≤ n` (for `q ≥ 2`, `n ≥ 1`): the exact value of
`math.floor(math.log(n) / math.log(q))`.  The first argument is fuel,
instantiated with `n` itself, which always suffices. -/
def logFloorAux (q : Nat) : Nat → Nat → Nat
  | 0, _ => 0
  | fuel + 1, n => if q ≤ n then logFloorAux q fuel (n / q) + 1 else 0

/-- Floor of the base-`q` logarithm of `n`. -/
def logFloor (q n : Nat) : Nat := logFloorAux q n n

/-- Round `p / D` to the nearest integer, ties to even: the rounding used
when Python formats the fractional part with `%.2g`. -/
def roundHalfEven (p D : Nat) : Nat :=
  let q := p / D
  let r := p % D
  if 2 * r < D then q
  else if D < 2 * r then q + 1
  else if q % 2 = 0 then q else q + 1

/-- Decimal digits of `n` as characters (via `Nat.repr`). -/
def natDigits (n : Nat) : List Char := (Nat.repr n).data

/-- Least `k ≥ 1` with `r * 10 ^ k ≥ D`: the position of the first
significant digit of the fraction `r / D` (for `1 ≤ r < D`).  The first
argument is fuel; `D` always suffices. -/
def firstSigAux (r D : Nat) : Nat → Nat → Nat
  | 0, k => k
  | fuel + 1, k => if D ≤ r * 10 ^ k then k else firstSigAux r D fuel (k + 1)

/-- Position of the first significant decimal digit of `r / D`. -/
def firstSigPos (r D : Nat) : Nat := firstSigAux r D D 1

/-- Formatting of the fractional part `r / D` (with `0 < r < D`) to two
significant figures with trailing zeros stripped, as produced by
Python's `f"{fractional_part:.2g}"[2:]` in `format_amount`: the digits
after `0.` of the two-significant-figure rendering.  (The model covers
the fixed-notation regime of the `g` format and fractions whose
two-digit rounding does not overflow to `1.0`; all fractions reaching
this function in this development are of that shape.) -/
def fracTwoSigDigits (r D : Nat) : List Char :=
  let k := firstSigPos r D
  let m := roundHalfEven (r * 10 ^ (k + 1)) D
  let stripped := ((natDigits m).reverse.dropWhile (fun c => c = '0')).reverse
  List.replicate (k - 1) '0' ++ stripped

/-- Embedding of `perftest.utils.format_amount` for a natural amount:
increase the unit prefix while it is possible to do so and render the
scaled amount, returning the pair of the formatted amount and the new
prefix. -/
def format_amount (amount : Nat) (originalPrefix : String)
    (quotient : Nat) (prefixes : List String) : String × String :=
  if amount = 0 then (Nat.repr amount, originalPrefix)
  else
    let exponent := logFloor quotient amount
    let scale := quotient ^ exponent
    let formatted :=
      if amount % scale = 0 then Nat.repr (amount / scale)
      else
        String.mk (natDigits (amount / scale)) ++ "." ++
          String.mk (fracTwoSigDigits (amount % scale) scale)
    let prefixIdx := prefixes.findIdx (fun p => p = originalPrefix) + exponent
    (formatted, (prefixes.getD prefixIdx ""))

/-!
Iperf data model (`perftest/models/v1alpha1/iperf.py`).  Spec fields that
are never read by `summarise` or the operator handlers (image, pull
policy, host network, and so on) are omitted.
-/

/-- Result of an individual iperf stream or summary row. -/
structure IPerfSingleResult where
  transfer : Nat
  bandwidth : Nat
deriving DecidableEq, Repr

/-- Overall result of an iperf benchmark: per-stream results indexed by
stream id (insertion-ordered, like the Python dict) and the combined
result. -/
structure IPerfResult where
  streams : List (String × IPerfSingleResult)
  sum : IPerfSingleResult
deriving DecidableEq, Repr

/-- The fields of `IPerfSpec` read by `summarise`. -/
structure IPerfSpec where
  duration : Nat
  streams : Nat
deriving DecidableEq, Repr

/-- Status of an iperf benchmark: the common benchmark status plus the
kind-specific result fields. -/
structure IPerfStatus extends BenchmarkStatus where
  summaryResult : Option String := none
  result : Option IPerfResult := none
  clientLog : Option String := none
deriving DecidableEq, Repr

/-- An iperf benchmark resource (spec and status). -/
structure IPerf where
  spec : IPerfSpec
  status : IPerfStatus
deriving DecidableEq, Repr

/-- Errors raised by the result-extraction pipeline (`perftest/errors.py`),
plus Python's `StopIteration` from `next` on an exhausted iterator. -/
inductive PerftestError where
  | podLogFormat (msg : String)
  | podResultsIncomplete (msg : String)
  | stopIteration
deriving DecidableEq, Repr

/-- Matches Python `re.match(r"..\[ *ID\]", l)`: an opening bracket, any
number of spaces, then `ID]`. -/
def isHeaderLine (l : List Char) : Bool :=
  match l with
  | '[' :: rest =>
      match rest.dropWhile (fun c => c = ' ') with
      | 'I' :: 'D' :: ']' :: _ => true
      | _ => false
  | _ => false

/-- ASCII alphanumeric, the character class `[a-zA-Z0-9]`. -/
def isAlnumChar (c : Char) : Bool := c.isAlpha || c.isDigit

/-- Parse the leading `\[ *([a-zA-Z0-9]+)\]` of a result row, returning the
captured stream id and the rest of the line. -/
def parseRowId (l : List Char) : Option (String × List Char) :=
  match l with
  | '[' :: rest =>
      let rest1 := rest.dropWhile (fun c => c = ' ')
      let idChars := rest1.takeWhile isAlnumChar
      match idChars, rest1.dropWhile isAlnumChar with
      | [], _ => none
      | _, ']' :: rest3 => some (String.mk idChars, rest3)
      | _, _ => none
  | _ => none

/-- Strip an expected literal from the front of the input, returning the
remainder on success. -/
def stripLiteral : List Char → List Char → Option (List Char)
  | [], cs => some cs
  | _ :: _, [] => none
  | l :: ls, c :: cs => if c = l then stripLiteral ls cs else none

/-- Numeric value of a string of decimal digits. -/
def digitsToNat (ds : List Char) : Nat :=
  ds.foldl (fun a c => a * 10 + (c.toNat - '0'.toNat)) 0

/-- Try to match `(\d+) KBytes +(\d+) Kbits/sec` starting exactly at the
current position. -/
def measureAt (cs : List Char) : Option (Nat × Nat) :=
  let ds := cs.takeWhile Char.isDigit
  match ds with
  | [] => none
  | _ =>
    match stripLiteral " KBytes".data (cs.dropWhile Char.isDigit) with
    | none => none
    | some r1 =>
        match r1.takeWhile (fun c => c = ' ') with
        | [] => none
        | _ =>
          let r2 := r1.dropWhile (fun c => c = ' ')
          match r2.takeWhile Char.isDigit with
          | [] => none
          | bs =>
              match stripLiteral " Kbits/sec".data (r2.dropWhile Char.isDigit) with
              | none => none
              | some _ => some (digitsToNat ds, digitsToNat bs)

/-- Scan for the leftmost match of `(\d+) KBytes +(\d+) Kbits/sec`,
realising the lazy `.*?` of the row regex. -/
def scanMeasure : List Char → Option (Nat × Nat)
  | [] => none
  | c :: rest =>
      match measureAt (c :: rest) with
      | some m => some m
      | none => scanMeasure rest

/-- Full row match `^\[ *([a-zA-Z0-9]+)\].*?(\d+) KBytes +(\d+) Kbits/sec`
(`re.search` with a leading anchor), returning id, transfer and
bandwidth. -/
def parseRowLine (l : List Char) : Option (String × Nat × Nat) :=
  match parseRowId l with
  | none => none
  | some (id, rest) =>
      match scanMeasure rest with
      | none => none
      | some (t, bw) => some (id, t, bw)

/-- Python dict assignment `d[k] = v`: replace in place if the key exists,
append otherwise. -/
def upsertResult (d : List (String × IPerfSingleResult)) (k : String)
    (v : IPerfSingleResult) : List (String × IPerfSingleResult) :=
  match d with
  | [] => [(k, v)]
  | (k', v') :: rest =>
      if k' = k then (k', v) :: rest else (k', v') :: upsertResult rest k v

/-- Lookup in the stream-results dict. -/
def lookupResult : List (String × IPerfSingleResult) → String → Option IPerfSingleResult
  | [], _ => none
  | (k', v) :: rest, k => if k' = k then some v else lookupResult rest k

/-- Python `dict.pop(k, None)`: the dict without the entry for `k`. -/
def removeResult : List (String × IPerfSingleResult) → String → List (String × IPerfSingleResult)
  | [], _ => []
  | (k', v) :: rest, k => if k' = k then rest else (k', v) :: removeResult rest k

/-- Split a character list at newlines. -/
def splitOnNewline : List Char → List (List Char)
  | [] => [[]]
  | c :: rest =>
      if c = '\n' then [] :: splitOnNewline rest
      else
        match splitOnNewline rest with
        | l :: ls => (c :: l) :: ls
        | [] => [[c]]

/-- Python `str.splitlines()` for newline-delimited text: no trailing empty
line for a trailing newline, and the empty string yields no lines. -/
def pySplitlines (s : String) : List (List Char) :=
  match s.data with
  | [] => []
  | cs =>
      let parts := splitOnNewline cs
      if parts.getLast? = some [] then parts.dropLast else parts

/-- Embedding of `IPerf.summarise` (`iperf.py`): parse the captured client
log into per-stream results, validate the stream count, and derive the
detailed result and the human-readable headline. -/
def IPerf.summarise (b : IPerf) : Except PerftestError IPerf :=
  match b.status.clientLog with
  | none => .error (.podResultsIncomplete "client pod has not recorded logs yet")
  | some log =>
      match (pySplitlines log).dropWhile (fun l => !isHeaderLine l) with
      | [] => .error .stopIteration
      | _ :: rows =>
          let streamResults := rows.foldl
            (fun d l =>
              match parseRowLine l with
              | some (id, t, bw) => upsertResult d id ⟨t, bw⟩
              | none => d)
            []
          let sumResult := lookupResult streamResults "SUM"
          let streamsOnly := removeResult streamResults "SUM"
          if streamsOnly.length ≠ b.spec.streams ∨ (1 < b.spec.streams ∧ sumResult = none) then
            .error (.podLogFormat "pod log is not of the expected format")
          else
            match sumResult, streamsOnly.head? with
            | none, none => .error .stopIteration
            | some s, _ =>
                .ok (summaryUpdate b ⟨streamsOnly, s⟩)
            | none, some (_, s) =>
                .ok (summaryUpdate b ⟨streamsOnly, s⟩)
where
  /-- Store the detailed result and the formatted headline on the status. -/
  summaryUpdate (b : IPerf) (result : IPerfResult) : IPerf :=
    let fp := format_amount result.sum.bandwidth "K" 1000 unitPrefixes
    { b with
        status := { b.status with
          result := some result,
          summaryResult := some (fp.1 ++ " " ++ fp.2 ++ "bits/sec") } }

/-!
Embedding of the reconciliation handlers of `perftest/operator.py`.
Cluster API calls are reified as actions; `kopf.TemporaryError` and an
uncaught Python exception are reified as handler results.
-/

/-- Cluster-mutating calls issued by `handle_benchmark_status_changed`,
in program order. -/
inductive OperatorAction where
  | saveStatus (st : BenchmarkStatus)
  | registerCompletion (succeeded : Bool)
  | deleteResource (ref : ResourceRef)
  | deletePriorityClass (name : Option String)
deriving DecidableEq, Repr

/-- How a handler invocation ends: normal return, `kopf.TemporaryError`
with its retry delay in seconds, or an exception propagating out of the
handler. -/
inductive HandlerResult where
  | success
  | temporaryError (msg : String) (delay : Nat)
  | raisedError (msg : String)
deriving DecidableEq, Repr

/-- Outcome of the kind-specific `benchmark.summarise()` call: the
summarised status, a `PodResultsIncompleteError`, or a
`PodLogFormatError` (any other exception behaves like the latter). -/
inductive SummariseResult where
  | ok (st : BenchmarkStatus)
  | incomplete (msg : String)
  | formatError (msg : String)
deriving DecidableEq, Repr

/-- Result of one invocation of `handle_benchmark_status_changed`: the
benchmark status as last written (or left), the cluster calls made, and
how the handler returned. -/
structure HandlerOutcome where
  status : BenchmarkStatus
  actions : List OperatorAction
  result : HandlerResult
deriving DecidableEq, Repr

/-- Embedding of `handle_benchmark_status_changed` (`operator.py`), the
phase-change handler: terminal phases record `finishedAt` once and
register completion with an owning set; `Running` records `startedAt`
once; `Summarising` summarises, saves, tears down the managed resources
and the priority class, and only then marks the benchmark `Completed`.
The kind-specific `summarise` is a parameter; `hasOwnerSet` tells
whether the benchmark has an owner reference to a BenchmarkSet. -/
def handle_benchmark_status_changed (now : Nat) (hasOwnerSet : Bool)
    (summarise : BenchmarkStatus → SummariseResult) (st : BenchmarkStatus) :
    HandlerOutcome :=
  if st.phase.isTerminal then
    let (st1, acts1) :=
      if st.finishedAt = none then
        ({ st with finishedAt := some now },
         [OperatorAction.saveStatus { st with finishedAt := some now }])
      else (st, [])
    let acts2 :=
      if hasOwnerSet then
        [OperatorAction.registerCompletion (st.phase == BenchmarkPhase.completed)]
      else []
    ⟨st1, acts1 ++ acts2, .success⟩
  else if st.phase = .running then
    if st.startedAt = none then
      ⟨{ st with startedAt := some now },
       [OperatorAction.saveStatus { st with startedAt := some now }], .success⟩
    else ⟨st, [], .success⟩
  else if st.phase = .summarising then
    match summarise st with
    | .incomplete msg => ⟨st, [], .temporaryError msg 1⟩
    | .formatError msg => ⟨st, [], .raisedError msg⟩
    | .ok st' =>
        let final := { st' with phase := .completed, managedResources := [] }
        ⟨final,
         OperatorAction.saveStatus st' ::
           (st'.managedResources.map OperatorAction.deleteResource ++
            [OperatorAction.deletePriorityClass st'.priorityClassName,
             OperatorAction.saveStatus final]),
         .success⟩
  else ⟨st, [], .success⟩

/-!
Priority allocation (`handle_benchmark_created`, `operator.py`).
-/

/-- The benchmark-identifying label triple. -/
structure BenchmarkId where
  kind : String
  nspace : String
  name : String
deriving DecidableEq, Repr

/-- A priority class bearing the benchmark labels
(only the fields the allocator reads). -/
structure PriorityClass where
  kindLabel : String
  namespaceLabel : String
  nameLabel : String
  value : Int
deriving DecidableEq, Repr

/-- The label comparison in the listing loop of `handle_benchmark_created`. -/
def pcMatches (b : BenchmarkId) (pc : PriorityClass) : Bool :=
  pc.kindLabel == b.kind && pc.namespaceLabel == b.nspace && pc.nameLabel == b.name

/-- The default of `settings.initial_priority` (`config.py`). -/
def initial_priority_default : Int := -1

/-- Embedding of the priority-class section of `handle_benchmark_created`
(executed under `PRIORITY_LOCK`): reuse the class whose labels match the
benchmark, otherwise create a new one whose value is one less than the
minimum of `initialPriority + 1` and every listed class value.  Returns
the class bound to the benchmark and the updated list of labelled
classes on the cluster. -/
def allocate_priority_class (initialPriority : Int) (pcs : List PriorityClass)
    (b : BenchmarkId) : PriorityClass × List PriorityClass :=
  match pcs.find? (pcMatches b) with
  | some pc => (pc, pcs)
  | none =>
      let current := pcs.foldl (fun c pc => min c pc.value) (initialPriority + 1)
      let newPc : PriorityClass := ⟨b.kind, b.nspace, b.name, current - 1⟩
      (newPc, pcs ++ [newPc])

/-- Sequential allocations for a list of benchmarks, starting from a given
cluster state (the lock serialises the allocations). -/
def allocate_sequence (initialPriority : Int) (pcs : List PriorityClass) :
    List BenchmarkId → List PriorityClass
  | [] => pcs
  | b :: bs =>
      allocate_sequence initialPriority
        (allocate_priority_class initialPriority pcs b).2 bs

/-!
Discovery path (`handle_endpoints_event`, `operator.py`).
-/

/-- Lookup in an insertion-ordered string dictionary. -/
def lookupStr : List (String × String) → String → Option String
  | [], _ => none
  | (k', v) :: rest, k => if k' = k then some v else lookupStr rest k

/-- Python dict assignment for the `ips` dictionary. -/
def upsertStr (d : List (String × String)) (k v : String) : List (String × String) :=
  match d with
  | [] => [(k, v)]
  | (k', v') :: rest =>
      if k' = k then (k', v) :: rest else (k', v') :: upsertStr rest k v

/-- Target reference of an endpoints address. -/
structure EndpointTargetRef where
  kind : String
  name : String
deriving DecidableEq, Repr

/-- One address of an endpoints subset (fields read by the handler). -/
structure EndpointAddress where
  ip : String
  hostname : Option String
  targetRef : Option EndpointTargetRef
deriving DecidableEq, Repr

/-- One subset of an endpoints object. -/
structure EndpointSubset where
  addresses : List EndpointAddress
  notReadyAddresses : List EndpointAddress
deriving DecidableEq, Repr

/-- The discovery configmap: its name and its `all-hosts` datum
(`data.get("all-hosts", "")`). -/
structure DiscoveryConfigMap where
  name : String
  allHosts : String
deriving DecidableEq, Repr

/-- The default of `settings.default_hosts` (`config.py`): the stripped
`DEFAULT_HOSTS` block. -/
def default_hosts : String :=
  "127.0.0.1  localhost\n::1        localhost ip6-localhost ip6-loopback"

/-- The peer key and hosts line derived from one address: the hostname if
present, else the pod name of a `Pod` target reference, else nothing;
the key is suffixed with the service name and the line is
`<ip>  <hostname>.<svc>  <hostname>`. -/
def hostEntryFor (svcName : String) (a : EndpointAddress) : Option (String × String) :=
  let entry := fun (h : String) =>
    (h ++ "." ++ svcName, a.ip ++ "  " ++ h ++ "." ++ svcName ++ "  " ++ h)
  match a.hostname with
  | some h => some (entry h)
  | none =>
      match a.targetRef with
      | some tr => if tr.kind = "Pod" then some (entry tr.name) else none
      | none => none

/-- The `ips` dictionary accumulated over `addresses` followed by
`notReadyAddresses` of every subset. -/
def discoveredHosts (svcName : String) (subsets : List EndpointSubset) :
    List (String × String) :=
  subsets.foldl
    (fun ips subset =>
      (subset.addresses ++ subset.notReadyAddresses).foldl
        (fun ips a =>
          match hostEntryFor svcName a with
          | some (k, line) => upsertStr ips k line
          | none => ips)
        ips)
    []

/-- Python `str.strip()`: drop whitespace from both ends. -/
def pyStrip (cs : List Char) : List Char :=
  ((cs.dropWhile Char.isWhitespace).reverse.dropWhile Char.isWhitespace).reverse

/-- The expected names: the stripped lines of the configmap's `all-hosts`
key (a set in Python; only membership is used). -/
def expectedHostNames (cm : DiscoveryConfigMap) : List String :=
  (pySplitlines cm.allHosts).map (fun l => String.mk (pyStrip l))

/-- Python `"\n".join`. -/
def joinLines : List String → String
  | [] => ""
  | l :: ls => ls.foldl (fun acc x => acc ++ "\n" ++ x) l

/-- Embedding of `handle_endpoints_event` (`operator.py`): on an endpoints
change, when the benchmark is not completed and a tracking configmap
exists, patch its `data.hosts` with the full hosts block when
`expected.difference(ips.keys())` is empty and with the empty string
otherwise.  The result is the written `hosts` value (`none` when no
patch is issued). -/
def handle_endpoints_event (phase : BenchmarkPhase)
    (configmap : Option DiscoveryConfigMap) (eventType : String)
    (svcName : String) (subsets : List EndpointSubset) : Option String :=
  if phase = .completed then none
  else
    match configmap with
    | none => none
    | some cm =>
        let expected := expectedHostNames cm
        let ips := if eventType = "DELETED" then [] else discoveredHosts svcName subsets
        some
          (if (expected.filter (fun e => (lookupStr ips e).isNone)).isEmpty then
            joinLines (default_hosts :: ips.map Prod.snd)
          else "")

/-!
Benchmark-set expansion (`handle_benchmark_set_created`, `operator.py`,
with `BenchmarkSetPermutations` from `models/v1alpha1/set.py`).
-/

/-- The permutations of a benchmark set: the `product` dictionary (keys in
insertion order) and the `explicit` list. -/
structure BenchmarkSetPermutations where
  product : List (String × List Value)
  explicit : List (List (String × Value))

/-- Embedding of `BenchmarkSetPermutations.get_count` (`set.py`): the
product of the `product` list lengths (0 when `product` is empty) plus
the number of explicit permutations, clamped to at least 1. -/
def BenchmarkSetPermutations.get_count (p : BenchmarkSetPermutations) : Nat :=
  let productCount := if p.product.isEmpty then 0 else (p.product.map (fun kv => kv.2.length)).prod
  max (productCount + p.explicit.length) 1

/-- The `itertools.product` enumeration: later keys vary fastest. -/
def cartesianPermutations : List (String × List Value) → List (List (String × Value))
  | [] => [[]]
  | (k, vs) :: rest =>
      (vs.map (fun v => (cartesianPermutations rest).map (fun p => (k, v) :: p))).flatten

/-- Embedding of `BenchmarkSetPermutations.get_permutations` (`set.py`):
the Cartesian product of `product` followed by the explicit entries, or
a single empty permutation when both are empty. -/
def BenchmarkSetPermutations.get_permutations (p : BenchmarkSetPermutations) :
    List (List (String × Value)) :=
  if p.product.isEmpty && p.explicit.isEmpty then [[]]
  else cartesianPermutations p.product ++ p.explicit

/-- Python `str.zfill`: pad with leading zeros to the given width. -/
def zfill (width : Nat) (s : String) : String :=
  String.mk (List.replicate (width - s.length) '0') ++ s

/-- The index padding width of `handle_benchmark_set_created`:
`math.floor(math.log(count, 10)) + 1` (exact for the naturals used
here). -/
def paddingWidth (count : Nat) : Nat := logFloor 10 count + 1

/-- The status fields of a benchmark set touched by its handlers
(`BenchmarkSetStatus`, `set.py`). -/
structure BenchmarkSetStatusModel where
  permutationCount : Option Nat := none
  count : Option Nat := none
  succeeded : Option Nat := none
  failed : Option Nat := none
deriving DecidableEq, Repr

/-- The spec of a benchmark set: the template's fixed spec, the number of
repetitions per permutation, and the permutations. -/
structure BenchmarkSetSpecModel where
  templateSpec : List (String × Value)
  repetitions : Nat
  permutations : BenchmarkSetPermutations

/-- A child benchmark created by the set controller. -/
structure BenchmarkSetChild where
  name : String
  spec : Value

/-- Embedding of `handle_benchmark_set_created` (`operator.py`): set
`status.count` from `get_count`, zero the tallies on first sight, and
apply one child benchmark per element of `get_permutations`, named by
the padded 1-based index and with spec `mergeconcat(template.spec,
permutation)`. -/
def handle_benchmark_set_created (setName : String) (spec : BenchmarkSetSpecModel)
    (st : BenchmarkSetStatusModel) :
    BenchmarkSetStatusModel × List BenchmarkSetChild :=
  let st1 := { st with count := some spec.permutations.get_count }
  let st2 :=
    if st1.succeeded = none then { st1 with succeeded := some 0, failed := some 0 }
    else st1
  let width := paddingWidth spec.permutations.get_count
  let children := spec.permutations.get_permutations.enum.map
    (fun ip =>
      { name := setName ++ "-" ++ zfill width (Nat.repr (ip.1 + 1)),
        spec := mergeconcat (Value.dict spec.templateSpec) [Value.dict ip.2] })
  (st2, children)

/-!
Helper predicates and the concrete resources used in the theorems below.
-/

/-- An action that tears cluster state down. -/
def isTeardown : OperatorAction → Bool
  | .deleteResource _ => true
  | .deletePriorityClass _ => true
  | _ => false

/-- Modelled from the spec's words, for comparison with the source: the
discovered keys exactly as the claim states them — the `hostname`, or
`targetRef.name` for pod targets, of each address of the endpoints,
without the service-name suffix the code appends. -/
def claimDiscoveredKeys (subsets : List EndpointSubset) : List String :=
  (subsets.map (fun s =>
    (s.addresses ++ s.notReadyAddresses).filterMap (fun a =>
      match a.hostname with
      | some h => some h
      | none =>
          match a.targetRef with
          | some tr => if tr.kind = "Pod" then some tr.name else none
          | none => none))).flatten

/-- Client log of the single-stream iperf scenario: the header line
followed by the single stream row of the claim. -/
def c4log : String :=
  "[ ID] Interval       Transfer     Bandwidth\n[  3]  0.0-3.0 sec   384 KBytes  1024 Kbits/sec"

/-- Single-stream iperf benchmark with the captured client log. -/
def c4bench : IPerf :=
  { spec := { duration := 3, streams := 1 }
    status := { phase := .summarising, clientLog := some c4log } }

/-- Client log with rows for stream ids 3, 4 and 5 and no SUM row. -/
def c6log : String :=
  "[ ID] Interval       Transfer     Bandwidth\n" ++
  "[  3]  0.0-10.0 sec   384 KBytes  1024 Kbits/sec\n" ++
  "[  4]  0.0-10.0 sec   384 KBytes  1024 Kbits/sec\n" ++
  "[  5]  0.0-10.0 sec   384 KBytes  1024 Kbits/sec"

/-- An iperf benchmark expecting four streams whose log carries three. -/
def c6bench : IPerf :=
  { spec := { duration := 10, streams := 4 }
    status := { phase := .summarising, clientLog := some c6log } }

/-- A benchmark status that has just transitioned to `Failed` while still
holding a managed resource and a priority class. -/
def c3status : BenchmarkStatus :=
  { phase := .failed
    priorityClassName := some "kube-perftest-h7d2k"
    managedResources := [⟨"batch.volcano.sh/v1alpha1", "Job", "iperf-one-worker"⟩]
    startedAt := some 10
    finishedAt := none }

/-- The benchmark-set spec of the fan-out scenario: template spec
`{duration: 5}`, `product = {streams: [1, 4]}` and three repetitions. -/
def c1spec : BenchmarkSetSpecModel :=
  { templateSpec := [("duration", .num 5)]
    repetitions := 3
    permutations := { product := [("streams", [.num 1, .num 4])], explicit := [] } }

/-- A discovery configmap expecting the bare pod name `pod-0`. -/
def c8cm : DiscoveryConfigMap := ⟨"mpi-hosts", "pod-0"⟩

/-- Endpoints subsets carrying an address for hostname `pod-0`. -/
def c8subsets : List EndpointSubset :=
  [{ addresses := [{ ip := "10.0.0.1", hostname := some "pod-0", targetRef := none }]
     notReadyAddresses := [] }]

/-!
Theorems.
-/

theorem mergeconcat2_null (d : Value) : mergeconcat2 d Value.null = d := by
  cases d <;> simp [mergeconcat2]

theorem mergeEntries_singleton (ds : List (String × Value)) (k : String) (v : Value) :
    mergeEntries ds [(k, v)] = upsertEntry ds k v := by
  simp [mergeEntries]

theorem mergeconcat_singleton (d o : Value) : mergeconcat d [o] = mergeconcat2 d o := by
  simp [mergeconcat]

theorem upsertEntry_null_of_mem (ds : List (String × Value)) (k : String)
    (h : (lookupEntry ds k).isSome) : upsertEntry ds k Value.null = ds := by
  induction ds with
  | nil => simp [lookupEntry] at h
  | cons p rest ih =>
      obtain ⟨k', v'⟩ := p
      by_cases hk : k' = k
      · simp [upsertEntry, hk, mergeconcat2_null]
      · simp only [lookupEntry, if_neg hk] at h
        simp [upsertEntry, hk, ih h]

theorem lookup_upsertEntry_self (ds : List (String × Value)) (k : String) (v : Value) :
    lookupEntry (upsertEntry ds k v) k =
      some (match lookupEntry ds k with
            | some dv => mergeconcat2 dv v
            | none => v) := by
  induction ds with
  | nil => simp [upsertEntry, lookupEntry]
  | cons p rest ih =>
      obtain ⟨k', v'⟩ := p
      by_cases hk : k' = k
      · simp [upsertEntry, hk, lookupEntry]
      · simp [upsertEntry, hk, lookupEntry, ih]

theorem lookup_upsertEntry_other (ds : List (String × Value)) (k k' : String) (v : Value)
    (h : k' ≠ k) : lookupEntry (upsertEntry ds k v) k' = lookupEntry ds k' := by
  induction ds with
  | nil =>
      simp only [upsertEntry, lookupEntry]
      rw [if_neg (fun hk => h hk.symm)]
  | cons p rest ih =>
      obtain ⟨k'', v''⟩ := p
      by_cases hk : k'' = k
      · subst hk
        simp only [upsertEntry, if_pos rfl, lookupEntry]
        rw [if_neg (fun hk2 => h hk2.symm), if_neg (fun hk2 => h hk2.symm)]
      · simp only [upsertEntry, if_neg hk, lookupEntry]
        by_cases hk2 : k'' = k'
        · simp [hk2]
        · simp [hk2, ih]

theorem mergeconcat2_scalar (d o : Value) (h : o.isScalar = true) :
    mergeconcat2 d o = o := by
  cases d <;> cases o <;> simp_all [Value.isScalar, mergeconcat2]

/-- C10: in the deep merge `mergeconcat` used to combine a set template's
spec with a permutation, a `None` override never replaces an existing
default (both at the top of a value and key-wise inside a dictionary),
non-`None` scalars override, dictionaries merge key-wise, and sequences
concatenate. -/
theorem c10_mergeconcat_null_and_merge_semantics :
    (∀ d, mergeconcat d [Value.null] = d) ∧
    (∀ ds k, (lookupEntry ds k).isSome →
      mergeconcat (Value.dict ds) [Value.dict [(k, Value.null)]] = Value.dict ds) ∧
    (∀ d o, o.isScalar = true → mergeconcat d [o] = o) ∧
    (∀ xs ys, mergeconcat (Value.list xs) [Value.list ys] = Value.list (xs ++ ys)) ∧
    (∀ ds k v, lookupEntry (mergeEntries ds [(k, v)]) k =
      some (match lookupEntry ds k with
            | some dv => mergeconcat2 dv v
            | none => v)) ∧
    (∀ ds k k' v, k' ≠ k →
      lookupEntry (mergeEntries ds [(k, v)]) k' = lookupEntry ds k') := by
  refine ⟨fun d => ?_, fun ds k h => ?_, fun d o h => ?_, fun xs ys => ?_,
    fun ds k v => ?_, fun ds k k' v h => ?_⟩
  · rw [mergeconcat_singleton, mergeconcat2_null]
  · rw [mergeconcat_singleton]
    simp only [mergeconcat2]
    rw [mergeEntries_singleton, upsertEntry_null_of_mem ds k h]
  · rw [mergeconcat_singleton, mergeconcat2_scalar d o h]
  · rw [mergeconcat_singleton]; simp [mergeconcat2]
  · rw [mergeEntries_singleton, lookup_upsertEntry_self]
  · rw [mergeEntries_singleton, lookup_upsertEntry_other ds k k' v h]

/-- Witness for C10 at concrete values: a `None` override keeps the default
`5` under key `a`, a scalar override wins, and lists concatenate. -/
theorem c10_mergeconcat_null_and_merge_semantics_witness :
    mergeconcat (Value.dict [("a", Value.num 5)]) [Value.dict [("a", Value.null)]] =
      Value.dict [("a", Value.num 5)] ∧
    mergeconcat (Value.num 1) [Value.num 2] = Value.num 2 ∧
    mergeconcat (Value.list [Value.num 1]) [Value.list [Value.num 2]] =
      Value.list [Value.num 1, Value.num 2] :=
  ⟨c10_mergeconcat_null_and_merge_semantics.2.1 [("a", Value.num 5)] "a" (by simp [lookupEntry]),
   c10_mergeconcat_null_and_merge_semantics.2.2.1 (Value.num 1) (Value.num 2) (by rfl),
   c10_mergeconcat_null_and_merge_semantics.2.2.2.1 [Value.num 1] [Value.num 2]⟩

/-- C9: the default job-phase projection is partial — a job
`status.state.phase` string that is neither `Completed` nor one of the
benchmark phase names makes `BenchmarkPhase(job_phase)` raise instead of
updating the status, while an absent phase is treated as `Unknown` and
projected onto the `Unknown` phase. -/
theorem c9_job_modified_raises_on_unknown_phase :
    (∀ st s, s ≠ "Completed" → BenchmarkPhase.ofString s = none →
      job_modified (some s) st = none) ∧
    (∀ st : BenchmarkStatus,
      job_modified none st = some { st with phase := BenchmarkPhase.unknown }) := by
  constructor
  · intro st s hne hval
    simp [job_modified, hne, hval]
  · intro st
    rfl

/-- Witness for C9: Volcano's `Inqueue` phase raises (no status update)
and an absent phase yields the `Unknown` benchmark phase. -/
theorem c9_job_modified_raises_on_unknown_phase_witness :
    job_modified (some "Inqueue") {} = none ∧
    job_modified none {} = some { phase := BenchmarkPhase.unknown } :=
  ⟨c9_job_modified_raises_on_unknown_phase.1 {} "Inqueue" (by decide) (by rfl),
   c9_job_modified_raises_on_unknown_phase.2 {}⟩

theorem foldl_min_le_init (l : List Int) (a : Int) : l.foldl min a ≤ a := by
  induction l generalizing a with
  | nil => simp
  | cons x xs ih => exact le_trans (ih (min a x)) (min_le_left a x)

theorem foldl_min_le_mem (l : List Int) (a v : Int) (h : v ∈ l) : l.foldl min a ≤ v := by
  induction l generalizing a with
  | nil => cases h
  | cons x xs ih =>
      rcases List.mem_cons.mp h with rfl | h
      · exact le_trans (foldl_min_le_init xs (min a v)) (min_le_right a v)
      · exact ih _ h

theorem allocate_sequence_invariant (initial : Int) (bs : List BenchmarkId) :
    ∀ pcs : List PriorityClass,
      (pcs.map PriorityClass.value).Pairwise (· ≠ ·) →
      (∀ v ∈ pcs.map PriorityClass.value, v ≤ initial) →
      ((allocate_sequence initial pcs bs).map PriorityClass.value).Pairwise (· ≠ ·) ∧
      (∀ v ∈ (allocate_sequence initial pcs bs).map PriorityClass.value, v ≤ initial) := by
  induction bs with
  | nil => exact fun pcs hpair hle => ⟨hpair, hle⟩
  | cons b bs ih =>
      intro pcs hpair hle
      have hunfold : allocate_sequence initial pcs (b :: bs) =
          allocate_sequence initial (allocate_priority_class initial pcs b).2 bs := rfl
      rw [hunfold]
      cases hfind : pcs.find? (pcMatches b) with
      | some pc =>
          have hstep : (allocate_priority_class initial pcs b).2 = pcs := by
            simp [allocate_priority_class, hfind]
          rw [hstep]
          exact ih pcs hpair hle
      | none =>
          have hmin : pcs.foldl (fun c pc => min c pc.value) (initial + 1) =
              (pcs.map PriorityClass.value).foldl min (initial + 1) := by
            rw [List.foldl_map]
          have hstep : (allocate_priority_class initial pcs b).2 =
              pcs ++ [⟨b.kind, b.nspace, b.name,
                pcs.foldl (fun c pc => min c pc.value) (initial + 1) - 1⟩] := by
            simp [allocate_priority_class, hfind]
          rw [hstep]
          set nv : Int := pcs.foldl (fun c pc => min c pc.value) (initial + 1) - 1 with hnv
          have hlt : ∀ v ∈ pcs.map PriorityClass.value, nv < v := by
            intro v hv
            have := foldl_min_le_mem (pcs.map PriorityClass.value) (initial + 1) v hv
            rw [hnv, hmin]
            omega
          have hnle : nv ≤ initial := by
            have := foldl_min_le_init (pcs.map PriorityClass.value) (initial + 1)
            rw [hnv, hmin]
            omega
          apply ih
          · rw [List.map_append]
            rw [List.pairwise_append]
            refine ⟨hpair, by simp, ?_⟩
            intro v hv w hw
            simp only [List.map_cons, List.map_nil, List.mem_singleton] at hw
            subst hw
            exact fun he => absurd he.symm (ne_of_lt (hlt v hv))
          · intro v hv
            rw [List.map_append] at hv
            rcases List.mem_append.mp hv with hv | hv
            · exact hle v hv
            · simp only [List.map_cons, List.map_nil, List.mem_singleton] at hv
              subst hv
              exact hnle

/-- C2 counterexample: on a cluster with no labelled priority classes the
first benchmark's class is created with value `initialPriority` itself
(`min(initialPriority + 1) − 1`), not `initialPriority − 1`, and that
value is not strictly less than `initialPriority`. -/
theorem c2_first_allocation_counterexample :
    (allocate_priority_class initial_priority_default []
        ⟨"IPerf", "default", "bm-a"⟩).1.value = initial_priority_default ∧
    ¬((allocate_priority_class initial_priority_default []
        ⟨"IPerf", "default", "bm-a"⟩).1.value < initial_priority_default) ∧
    initial_priority_default ≠ initial_priority_default - 1 := by
  refine ⟨rfl, ?_, by decide⟩
  intro h
  exact absurd h (by decide)

/-- C2 (amended): priority-class values allocated by a sequence of
benchmark creations are pairwise distinct and all at most
`initialPriority`; the first benchmark created against a cluster with no
labelled priority classes receives value `initialPriority` exactly. -/
theorem c2_priority_values_distinct_and_bounded (initialPriority : Int)
    (bs : List BenchmarkId) :
    ((allocate_sequence initialPriority [] bs).map PriorityClass.value).Pairwise (· ≠ ·) ∧
    (∀ v ∈ (allocate_sequence initialPriority [] bs).map PriorityClass.value,
      v ≤ initialPriority) ∧
    (∀ b, (allocate_priority_class initialPriority [] b).1.value = initialPriority) := by
  have hinv := allocate_sequence_invariant initialPriority bs [] (by simp) (by simp)
  refine ⟨hinv.1, hinv.2, fun b => ?_⟩
  show initialPriority + 1 - 1 = initialPriority
  omega

/-- Witness for C2 at two concrete benchmarks and the default initial
priority −1: the allocated values are distinct, the second (−2) is below
−1, and the first allocation yields −1. -/
theorem c2_priority_values_distinct_and_bounded_witness :
    ((allocate_sequence (-1) []
        [⟨"IPerf", "default", "bm-a"⟩, ⟨"IPerf", "default", "bm-b"⟩]).map
          PriorityClass.value).Pairwise (· ≠ ·) ∧
    (-2 : Int) ≤ -1 ∧
    (allocate_priority_class (-1) [] ⟨"IPerf", "default", "bm-a"⟩).1.value = -1 :=
  ⟨(c2_priority_values_distinct_and_bounded (-1)
      [⟨"IPerf", "default", "bm-a"⟩, ⟨"IPerf", "default", "bm-b"⟩]).1,
   (c2_priority_values_distinct_and_bounded (-1)
      [⟨"IPerf", "default", "bm-a"⟩, ⟨"IPerf", "default", "bm-b"⟩]).2.1 (-2) (by decide),
   (c2_priority_values_distinct_and_bounded (-1) []).2.2 ⟨"IPerf", "default", "bm-a"⟩⟩

/-- C1 (evaluation at the failing input): for the fan-out scenario with two
permutations (`streams ∈ {1, 4}`) and three repetitions, the controller
sets `status.count` to 2, creates exactly 2 child benchmarks (one per
permutation), and never writes `status.permutationCount` — whereas
`permutationCount × repetitions = 6`: `spec.repetitions` is ignored. -/
theorem c1_set_created_ignores_repetitions :
    (handle_benchmark_set_created "iperf-set" c1spec {}).1.count = some 2 ∧
    (handle_benchmark_set_created "iperf-set" c1spec {}).2.length = 2 ∧
    ((handle_benchmark_set_created "iperf-set" c1spec {}).2.map BenchmarkSetChild.name) =
      ["iperf-set-1", "iperf-set-2"] ∧
    (handle_benchmark_set_created "iperf-set" c1spec {}).1.permutationCount = none ∧
    c1spec.permutations.get_count * c1spec.repetitions = 6 ∧
    (2 : Nat) ≠ 6 :=
  ⟨rfl, rfl, rfl, rfl, rfl, by decide⟩

/-- C4 counterexample: on the single-stream log of the claim the computed
headline is `1.024 Mbits/sec` (1024 Kbits/sec scaled with quotient
1000), not the claimed `1 Mbits/sec`. -/
theorem c4_summary_result_counterexample :
    (IPerf.summarise c4bench).map (fun b => b.status.summaryResult) =
      Except.ok (some "1.024 Mbits/sec") ∧
    (some "1.024 Mbits/sec" : Option String) ≠ some "1 Mbits/sec" :=
  ⟨rfl, by decide⟩

/-- C4 (amended): for the single-stream iperf benchmark whose client log
carries the row `[ 3] ... 384 KBytes 1024 Kbits/sec`, `summarise` sets
`status.result.sum` to 384 KBytes / 1024 Kbits/sec and the headline to
`1.024 Mbits/sec` (aggregate bandwidth with human-readable prefix,
quotient 1000). -/
theorem c4_single_stream_summary :
    (IPerf.summarise c4bench).map
        (fun b => (b.status.result.map IPerfResult.sum, b.status.summaryResult)) =
      Except.ok (some ⟨384, 1024⟩, some "1.024 Mbits/sec") := rfl

/-- C6 counterexample: the stream-count mismatch does raise a parse error,
but handling it leaves the phase `Summarising` — nothing in the
repository moves the benchmark to `Failed` on a parse error. -/
theorem c6_parse_error_phase_counterexample :
    IPerf.summarise c6bench =
      .error (.podLogFormat "pod log is not of the expected format") ∧
    (handle_benchmark_status_changed 0 false
        (fun _ => .formatError "pod log is not of the expected format")
        { phase := .summarising, priorityClassName := some "pc",
          startedAt := some 1 }).status.phase = BenchmarkPhase.summarising ∧
    BenchmarkPhase.summarising ≠ BenchmarkPhase.failed :=
  ⟨rfl, rfl, by decide⟩

/-- C6 (amended): when the parsed stream count differs from `spec.streams`
(ids 3, 4, 5 with no SUM row against `streams = 4`), `summarise` raises
`PodLogFormatError`; the Summarising handler converts only
incomplete-results errors into a 1-second retry, so the parse error
propagates out of the handler with no status write and no teardown and
the phase stays `Summarising`. -/
theorem c6_stream_mismatch_parse_error :
    (IPerf.summarise c6bench =
      .error (.podLogFormat "pod log is not of the expected format")) ∧
    (∀ now hos sum (st : BenchmarkStatus) msg, st.phase = .summarising →
      sum st = SummariseResult.formatError msg →
      handle_benchmark_status_changed now hos sum st = ⟨st, [], .raisedError msg⟩) := by
  constructor
  · rfl
  · intro now hos sum st msg hphase hsum
    simp [handle_benchmark_status_changed, hphase, hsum, BenchmarkPhase.isTerminal]

/-- Witness for C6: a concrete Summarising status whose summariser raises a
parse error propagates the error unchanged. -/
theorem c6_stream_mismatch_parse_error_witness :
    handle_benchmark_status_changed 3 true (fun _ => .formatError "bad log")
        { phase := .summarising } =
      ⟨{ phase := .summarising }, [], .raisedError "bad log"⟩ :=
  c6_stream_mismatch_parse_error.2 3 true (fun _ => .formatError "bad log")
    { phase := .summarising } "bad log" rfl rfl

/-- C3 counterexample: a benchmark arriving in the terminal phase `Failed`
still holds its managed resource after phase-change handling, and the
handler issues no deletion call — neither for the managed resources nor
for the priority class. -/
theorem c3_terminal_without_cleanup_counterexample :
    c3status.phase.isTerminal = true ∧
    (handle_benchmark_status_changed 42 true (fun _ => .incomplete "ignored")
        c3status).status.managedResources =
      [⟨"batch.volcano.sh/v1alpha1", "Job", "iperf-one-worker"⟩] ∧
    ([⟨"batch.volcano.sh/v1alpha1", "Job", "iperf-one-worker"⟩] : List ResourceRef) ≠ [] ∧
    ((handle_benchmark_status_changed 42 true (fun _ => .incomplete "ignored")
        c3status).actions.all (fun a => !isTeardown a)) = true :=
  ⟨rfl, rfl, by decide, rfl⟩

/-- C3 (amended): teardown happens only on the Summarising → Completed
path — there the managed resources and then the priority class are
deleted before the status with phase `Completed` and empty
`managedResources` is saved; for a phase that is already terminal the
handler only records `finishedAt` and registers completion with an
owning set, leaving `managedResources` untouched and issuing no
deletion. -/
theorem c3_cleanup_only_on_summarising_path :
    (∀ now hos sum (st : BenchmarkStatus), st.phase.isTerminal = true →
      (handle_benchmark_status_changed now hos sum st).status.managedResources =
        st.managedResources ∧
      ((handle_benchmark_status_changed now hos sum st).actions.all
        (fun a => !isTeardown a)) = true) ∧
    (∀ now hos sum (st st' : BenchmarkStatus), st.phase = .summarising →
      sum st = SummariseResult.ok st' →
      (handle_benchmark_status_changed now hos sum st).status.phase = .completed ∧
      (handle_benchmark_status_changed now hos sum st).status.managedResources = [] ∧
      (handle_benchmark_status_changed now hos sum st).actions =
        OperatorAction.saveStatus st' ::
          (st'.managedResources.map OperatorAction.deleteResource ++
           [OperatorAction.deletePriorityClass st'.priorityClassName,
            OperatorAction.saveStatus
              { st' with phase := .completed, managedResources := [] }])) := by
  constructor
  · intro now hos sum st hterm
    by_cases hfin : st.finishedAt = none <;> cases hos <;>
      simp [handle_benchmark_status_changed, hterm, hfin, isTeardown]
  · intro now hos sum st st' hphase hsum
    simp [handle_benchmark_status_changed, hphase, hsum, BenchmarkPhase.isTerminal]

/-- Witness for C3 at a concrete terminal status and a concrete
Summarising status with one managed resource. -/
theorem c3_cleanup_only_on_summarising_path_witness :
    (handle_benchmark_status_changed 42 true (fun _ => .incomplete "ignored")
        c3status).status.managedResources = c3status.managedResources ∧
    (handle_benchmark_status_changed 0 false
        (fun st => .ok st)
        { phase := .summarising, priorityClassName := some "pc",
          managedResources := [⟨"v1", "Service", "svc"⟩] }).status.phase =
      BenchmarkPhase.completed :=
  ⟨(c3_cleanup_only_on_summarising_path.1 42 true (fun _ => .incomplete "ignored")
      c3status rfl).1,
   (c3_cleanup_only_on_summarising_path.2 0 false (fun st => .ok st)
      { phase := .summarising, priorityClassName := some "pc",
        managedResources := [⟨"v1", "Service", "svc"⟩] }
      { phase := .summarising, priorityClassName := some "pc",
        managedResources := [⟨"v1", "Service", "svc"⟩] } rfl rfl).1⟩

/-- C5: while a benchmark is Summarising, an incomplete-results report
becomes a temporary error with a 1-second delay, the phase stays
Summarising and nothing is deleted; on success the summarised status is
saved first, then each managed resource and the priority class are
deleted, and only then is the phase set to Completed and saved. -/
theorem c5_summarising_transient_retry_and_teardown_order :
    (∀ now hos sum (st : BenchmarkStatus) msg, st.phase = .summarising →
      sum st = SummariseResult.incomplete msg →
      handle_benchmark_status_changed now hos sum st =
        ⟨st, [], .temporaryError msg 1⟩) ∧
    (∀ now hos sum (st st' : BenchmarkStatus), st.phase = .summarising →
      sum st = SummariseResult.ok st' →
      handle_benchmark_status_changed now hos sum st =
        ⟨{ st' with phase := .completed, managedResources := [] },
         OperatorAction.saveStatus st' ::
           (st'.managedResources.map OperatorAction.deleteResource ++
            [OperatorAction.deletePriorityClass st'.priorityClassName,
             OperatorAction.saveStatus
               { st' with phase := .completed, managedResources := [] }]),
         .success⟩) := by
  constructor
  · intro now hos sum st msg hphase hsum
    simp [handle_benchmark_status_changed, hphase, hsum, BenchmarkPhase.isTerminal]
  · intro now hos sum st st' hphase hsum
    simp [handle_benchmark_status_changed, hphase, hsum, BenchmarkPhase.isTerminal]

/-- Witness for C5: a concrete incomplete-results report is retried after
1 second with nothing deleted, and a concrete success tears down in
order. -/
theorem c5_summarising_transient_retry_and_teardown_order_witness :
    handle_benchmark_status_changed 5 false
        (fun _ => .incomplete "client pod has not recorded logs yet")
        { phase := .summarising, managedResources := [⟨"v1", "ConfigMap", "cm"⟩] } =
      ⟨{ phase := .summarising, managedResources := [⟨"v1", "ConfigMap", "cm"⟩] }, [],
       .temporaryError "client pod has not recorded logs yet" 1⟩ ∧
    handle_benchmark_status_changed 5 false (fun st => .ok st)
        { phase := .summarising, priorityClassName := some "pc",
          managedResources := [⟨"v1", "ConfigMap", "cm"⟩] } =
      ⟨{ phase := .completed, priorityClassName := some "pc", managedResources := [] },
       [OperatorAction.saveStatus
          { phase := .summarising, priorityClassName := some "pc",
            managedResources := [⟨"v1", "ConfigMap", "cm"⟩] },
        OperatorAction.deleteResource ⟨"v1", "ConfigMap", "cm"⟩,
        OperatorAction.deletePriorityClass (some "pc"),
        OperatorAction.saveStatus
          { phase := .completed, priorityClassName := some "pc",
            managedResources := [] }],
       .success⟩ :=
  ⟨c5_summarising_transient_retry_and_teardown_order.1 5 false
      (fun _ => .incomplete "client pod has not recorded logs yet")
      { phase := .summarising, managedResources := [⟨"v1", "ConfigMap", "cm"⟩] }
      "client pod has not recorded logs yet" rfl rfl,
   c5_summarising_transient_retry_and_teardown_order.2 5 false (fun st => .ok st)
      { phase := .summarising, priorityClassName := some "pc",
        managedResources := [⟨"v1", "ConfigMap", "cm"⟩] }
      { phase := .summarising, priorityClassName := some "pc",
        managedResources := [⟨"v1", "ConfigMap", "cm"⟩] } rfl rfl⟩

theorem handler_startedAt_eq (now : Nat) (hos : Bool)
    (sum : BenchmarkStatus → SummariseResult)
    (hpres : ∀ s s', sum s = .ok s' →
      s'.startedAt = s.startedAt ∧ s'.finishedAt = s.finishedAt)
    (st : BenchmarkStatus) :
    (handle_benchmark_status_changed now hos sum st).status.startedAt =
      if st.phase = .running ∧ st.startedAt = none then some now
      else st.startedAt := by
  cases hphase : st.phase with
  | aborted | completed | terminated | failed =>
      by_cases hfin : st.finishedAt = none <;>
        simp [handle_benchmark_status_changed, hphase, BenchmarkPhase.isTerminal, hfin]
  | running =>
      by_cases hstart : st.startedAt = none <;>
        simp [handle_benchmark_status_changed, hphase, BenchmarkPhase.isTerminal, hstart]
  | summarising =>
      cases hsum : sum st with
      | ok st' =>
          simp [handle_benchmark_status_changed, hphase, BenchmarkPhase.isTerminal, hsum,
            (hpres st st' hsum).1]
      | incomplete msg =>
          simp [handle_benchmark_status_changed, hphase, BenchmarkPhase.isTerminal, hsum]
      | formatError msg =>
          simp [handle_benchmark_status_changed, hphase, BenchmarkPhase.isTerminal, hsum]
  | unknown | preparing | pending | aborting | restarting | completing | terminating =>
      simp [handle_benchmark_status_changed, hphase, BenchmarkPhase.isTerminal]

theorem handler_finishedAt_eq (now : Nat) (hos : Bool)
    (sum : BenchmarkStatus → SummariseResult)
    (hpres : ∀ s s', sum s = .ok s' →
      s'.startedAt = s.startedAt ∧ s'.finishedAt = s.finishedAt)
    (st : BenchmarkStatus) :
    (handle_benchmark_status_changed now hos sum st).status.finishedAt =
      if st.phase.isTerminal = true ∧ st.finishedAt = none then some now
      else st.finishedAt := by
  cases hphase : st.phase with
  | aborted | completed | terminated | failed =>
      by_cases hfin : st.finishedAt = none <;>
        simp [handle_benchmark_status_changed, hphase, BenchmarkPhase.isTerminal, hfin]
  | running =>
      by_cases hstart : st.startedAt = none <;>
        simp [handle_benchmark_status_changed, hphase, BenchmarkPhase.isTerminal, hstart]
  | summarising =>
      cases hsum : sum st with
      | ok st' =>
          simp [handle_benchmark_status_changed, hphase, BenchmarkPhase.isTerminal, hsum,
            (hpres st st' hsum).2]
      | incomplete msg =>
          simp [handle_benchmark_status_changed, hphase, BenchmarkPhase.isTerminal, hsum]
      | formatError msg =>
          simp [handle_benchmark_status_changed, hphase, BenchmarkPhase.isTerminal, hsum]
  | unknown | preparing | pending | aborting | restarting | completing | terminating =>
      simp [handle_benchmark_status_changed, hphase, BenchmarkPhase.isTerminal]

/-- C7: over phase-change handling (with a summariser that does not touch
the timestamps, as the kind summarisers do not), `startedAt` is assigned
exactly on the first transition into `Running` and `finishedAt` exactly
on the first transition into a terminal phase: a non-null value is never
overwritten, `Running` with a null `startedAt` stamps it with the
current time, a terminal phase with a null `finishedAt` stamps it, and
no other phase-change handling assigns either field. -/
theorem c7_timestamps_set_once (now : Nat) (hos : Bool)
    (sum : BenchmarkStatus → SummariseResult)
    (hpres : ∀ s s', sum s = .ok s' →
      s'.startedAt = s.startedAt ∧ s'.finishedAt = s.finishedAt)
    (st : BenchmarkStatus) :
    (∀ t, st.startedAt = some t →
      (handle_benchmark_status_changed now hos sum st).status.startedAt = some t) ∧
    (∀ t, st.finishedAt = some t →
      (handle_benchmark_status_changed now hos sum st).status.finishedAt = some t) ∧
    (st.phase = .running → st.startedAt = none →
      (handle_benchmark_status_changed now hos sum st).status.startedAt = some now) ∧
    (st.phase.isTerminal = true → st.finishedAt = none →
      (handle_benchmark_status_changed now hos sum st).status.finishedAt = some now) ∧
    (st.phase ≠ .running →
      (handle_benchmark_status_changed now hos sum st).status.startedAt = st.startedAt) ∧
    (st.phase.isTerminal = false →
      (handle_benchmark_status_changed now hos sum st).status.finishedAt = st.finishedAt) := by
  have hs := handler_startedAt_eq now hos sum hpres st
  have hf := handler_finishedAt_eq now hos sum hpres st
  refine ⟨fun t ht => ?_, fun t ht => ?_, fun h1 h2 => ?_, fun h1 h2 => ?_,
    fun hne => ?_, fun hnt => ?_⟩
  · rw [hs]
    rw [if_neg (fun hc => by rw [ht] at hc; exact Option.noConfusion hc.2)]
    exact ht
  · rw [hf]
    rw [if_neg (fun hc => by rw [ht] at hc; exact Option.noConfusion hc.2)]
    exact ht
  · rw [hs, if_pos ⟨h1, h2⟩]
  · rw [hf, if_pos ⟨h1, h2⟩]
  · rw [hs]
    rw [if_neg (fun hc => hne hc.1)]
  · rw [hf]
    rw [if_neg (fun hc => by rw [hnt] at hc; exact Bool.noConfusion hc.1)]

/-- Witness for C7: a benchmark entering `Running` with no recorded start
time is stamped with the current time, and a recorded finish time
survives a later terminal event. -/
theorem c7_timestamps_set_once_witness :
    (handle_benchmark_status_changed 7 false (fun _ => .incomplete "x")
        { phase := .running }).status.startedAt = some 7 ∧
    (handle_benchmark_status_changed 9 false (fun _ => .incomplete "x")
        { phase := .failed, finishedAt := some 8 }).status.finishedAt = some 8 :=
  ⟨(c7_timestamps_set_once 7 false (fun _ => .incomplete "x")
      (fun s s' h => absurd h (by simp)) { phase := .running }).2.2.1 rfl rfl,
   (c7_timestamps_set_once 9 false (fun _ => .incomplete "x")
      (fun s s' h => absurd h (by simp))
      { phase := .failed, finishedAt := some 8 }).2.1 8 rfl⟩

theorem joinLines_length_ge (ls : List String) (a : String) :
    a.length ≤ (ls.foldl (fun acc x => acc ++ "\n" ++ x) a).length := by
  induction ls generalizing a with
  | nil => exact le_refl _
  | cons x xs ih =>
      refine le_trans ?_ (ih (a ++ "\n" ++ x))
      simp only [String.length_append]
      omega

theorem joinLines_default_ne_empty (ls : List String) :
    joinLines (default_hosts :: ls) ≠ "" := by
  intro hEq
  have hlen := joinLines_length_ge ls default_hosts
  rw [show (ls.foldl (fun acc x => acc ++ "\n" ++ x) default_hosts) =
      joinLines (default_hosts :: ls) from rfl, hEq] at hlen
  exact absurd hlen (by decide)

/-- C8 counterexample: with `all-hosts` listing the bare pod name `pod-0`
and an endpoints address with hostname `pod-0`, the claimed discovered
keys (bare hostnames) cover the expected names, yet the handler writes
the empty string — the source keys carry a `.<serviceName>` suffix, so
the comparison fails and `data.hosts` is cleared instead of written. -/
theorem c8_bare_key_counterexample :
    ((expectedHostNames c8cm).all
      (fun e => (claimDiscoveredKeys c8subsets).contains e)) = true ∧
    handle_endpoints_event .running (some c8cm) "MODIFIED" "svc" c8subsets = some "" ∧
    ("" : String) ≠
      joinLines (default_hosts :: (discoveredHosts "svc" c8subsets).map Prod.snd) :=
  ⟨rfl, rfl, by decide⟩

/-- C8 (amended): on an endpoints change for a benchmark that is not
completed and has a tracking configmap, `data.hosts` is written as the
complete hosts block (the platform default followed by one line per
discovered peer) if and only if the discovered keys — `hostname`, or
`targetRef.name` for pod targets, suffixed with `.<serviceName>` —
cover every expected name of the configmap's `all-hosts` key; otherwise
it is set to the empty string. -/
theorem c8_hosts_written_iff_expected_covered
    (phase : BenchmarkPhase) (cm : DiscoveryConfigMap) (eventType svcName : String)
    (subsets : List EndpointSubset) (hphase : phase ≠ .completed) :
    (handle_endpoints_event phase (some cm) eventType svcName subsets =
        some (joinLines (default_hosts ::
          ((if eventType = "DELETED" then [] else discoveredHosts svcName subsets).map
            Prod.snd))) ↔
      ∀ e ∈ expectedHostNames cm,
        (lookupStr (if eventType = "DELETED" then []
          else discoveredHosts svcName subsets) e).isSome) ∧
    ((¬ ∀ e ∈ expectedHostNames cm,
        (lookupStr (if eventType = "DELETED" then []
          else discoveredHosts svcName subsets) e).isSome) →
      handle_endpoints_event phase (some cm) eventType svcName subsets = some "") := by
  set ips := if eventType = "DELETED" then [] else discoveredHosts svcName subsets with hips
  have hcond : ((expectedHostNames cm).filter
      (fun e => (lookupStr ips e).isNone)).isEmpty = true ↔
      ∀ e ∈ expectedHostNames cm, (lookupStr ips e).isSome := by
    rw [List.isEmpty_iff, List.filter_eq_nil_iff]
    constructor
    · intro h e he
      have := h e he
      cases hl : lookupStr ips e
      · rw [hl] at this
        exact absurd rfl this
      · rfl
    · intro h e he
      have := h e he
      cases hl : lookupStr ips e
      · rw [hl] at this
        exact absurd this (by simp)
      · simp [hl]
  have hhandler : handle_endpoints_event phase (some cm) eventType svcName subsets =
      some (if ((expectedHostNames cm).filter
          (fun e => (lookupStr ips e).isNone)).isEmpty then
        joinLines (default_hosts :: ips.map Prod.snd)
      else "") := by
    simp [handle_endpoints_event, hphase, hips]
  rw [hhandler]
  by_cases hc : ((expectedHostNames cm).filter
      (fun e => (lookupStr ips e).isNone)).isEmpty = true
  · rw [if_pos hc]
    exact ⟨iff_of_true rfl (hcond.mp hc), fun hn => absurd (hcond.mp hc) hn⟩
  · rw [if_neg hc]
    refine ⟨iff_of_false ?_ (fun hcnd => hc (hcond.mpr hcnd)), fun _ => rfl⟩
    intro hsome
    have hblock := Option.some.inj hsome
    exact joinLines_default_ne_empty (ips.map Prod.snd) hblock.symm

/-- Witness for C8: when `all-hosts` lists `pod-0.svc` and the endpoints
carry hostname `pod-0` for service `svc`, the complete hosts block is
written. -/
theorem c8_hosts_written_iff_expected_covered_witness :
    handle_endpoints_event .running (some ⟨"mpi-hosts", "pod-0.svc"⟩) "MODIFIED" "svc"
        c8subsets =
      some (joinLines (default_hosts ::
        ((if ("MODIFIED" : String) = "DELETED" then []
          else discoveredHosts "svc" c8subsets).map Prod.snd))) :=
  (c8_hosts_written_iff_expected_covered .running ⟨"mpi-hosts", "pod-0.svc"⟩ "MODIFIED"
      "svc" c8subsets (by decide)).1.mpr (by decide)
